import Mathlib

/-!
Shallow embedding of the video-URL resolver in
`src/vlogapp/templatetags/vlog_tags.py`.

Strings are modelled as `List Char`.  Python values that may be `None` or a
string are modelled as `Option (List Char)`; Python truthiness of a string
(`if not url`) distinguishes `none`/`some []` from a non-empty string.

The Python code matches fixed regular expressions with `re.search`.  Each
pattern is of the form optional-prefix + mandatory-literal + tail, where the
optional prefix `(?:https?://)?(?:www\.)?` is non-capturing and entirely
optional, so a match exists at some start position exactly when the mandatory
literal occurs with the tail condition holding right after it, and the capture
is determined by the position of the mandatory literal alone.  (The mandatory
literals have no self-overlap and are at least as long as the longest optional
prefix minus their inter-occurrence distance, so the leftmost match of the
full pattern corresponds to the leftmost occurrence of the mandatory literal
whose tail condition holds.)  `re.search` is therefore embedded as
`searchLit`: scan start positions left to right; where the mandatory literal
matches, run the tail check; on failure keep scanning.

The regex character class `[a-zA-Z0-9_-]` is `isIdChar` (an explicit ASCII
class, independent of Unicode flags).  `\d` matches any Unicode decimal digit
(category Nd): it is modelled by `isPyDigit` over the Nd code-point ranges.
`$` (without `re.MULTILINE`) matches at end-of-string or just before a
newline that is the last character: the pattern tails `(?:&|$)` and
`(?:\?|$)` accept the boundary character, end-of-string, or a single
trailing newline.
-/

namespace Vlog

abbrev Str := List Char

/-- The character class `[a-zA-Z0-9_-]` of the YouTube id patterns. -/
def isIdChar (c : Char) : Bool :=
  c.isAlpha || c.isDigit || c == '_' || c == '-'

/-- `startsWithL pat s` holds when `pat` is an initial segment of `s`. -/
def startsWithL : Str → Str → Bool
  | [], _ => true
  | _ :: _, [] => false
  | p :: ps, c :: cs => p == c && startsWithL ps cs

/-- Python `sub in s` (substring containment), on char lists. -/
def hasSubstr (pat : Str) : Str → Bool
  | [] => startsWithL pat []
  | c :: t => startsWithL pat (c :: t) || hasSubstr pat t

/-- Embeds `re.search` for a pattern made of an optional non-capturing prefix,
the mandatory literal `lit`, and a tail matched/captured by `check`: scan
start positions left to right, run `check` on the text after the first
occurrence of `lit` whose check succeeds. -/
def searchLit (lit : Str) (check : Str → Option Str) : Str → Option Str
  | [] => none
  | c :: t =>
    if startsWithL lit (c :: t) then
      match check ((c :: t).drop lit.length) with
      | some r => some r
      | none => searchLit lit check t
    else
      searchLit lit check t

/-- Tail of the YouTube patterns: `([a-zA-Z0-9_-]` exactly 11 times `)`
followed by the boundary character `bnd` or `$`.  The Python `$` matches at
end-of-string or just before a newline that ends the string. -/
def idCheck11 (bnd : Char) (s : Str) : Option Str :=
  if (s.take 11).length == 11 && (s.take 11).all isIdChar then
    match s.drop 11 with
    | [] => some (s.take 11)
    | c :: rest =>
      if c == bnd || (c == '\n' && rest == []) then some (s.take 11) else none
  else
    none

/-- The code-point ranges of the Unicode decimal-digit characters (category
Nd), the class Python `\d` matches on `str` patterns. -/
def pyDigitRanges : List (Nat × Nat) := [
  (48, 57), (1632, 1641), (1776, 1785), (1984, 1993), (2406, 2415),
  (2534, 2543), (2662, 2671), (2790, 2799), (2918, 2927), (3046, 3055),
  (3174, 3183), (3302, 3311), (3430, 3439), (3558, 3567), (3664, 3673),
  (3792, 3801), (3872, 3881), (4160, 4169), (4240, 4249), (6112, 6121),
  (6160, 6169), (6470, 6479), (6608, 6617), (6784, 6793), (6800, 6809),
  (6992, 7001), (7088, 7097), (7232, 7241), (7248, 7257), (42528, 42537),
  (43216, 43225), (43264, 43273), (43472, 43481), (43504, 43513),
  (43600, 43609), (44016, 44025), (65296, 65305), (66720, 66729),
  (68912, 68921), (69734, 69743), (69872, 69881), (69942, 69951),
  (70096, 70105), (70384, 70393), (70736, 70745), (70864, 70873),
  (71248, 71257), (71360, 71369), (71472, 71481), (71904, 71913),
  (72016, 72025), (72784, 72793), (73040, 73049), (73120, 73129),
  (92768, 92777), (92864, 92873), (93008, 93017), (120782, 120831),
  (123200, 123209), (123632, 123641), (125264, 125273), (130032, 130041)]

/-- The regex class `\d`: any Unicode decimal digit. -/
def isPyDigit (c : Char) : Bool :=
  pyDigitRanges.any fun r => r.1 ≤ c.toNat && c.toNat ≤ r.2

/-- Tail of the Vimeo patterns: `(\d+)`, a greedy non-empty digit run. -/
def digitsCheck (s : Str) : Option Str :=
  match s.takeWhile isPyDigit with
  | [] => none
  | c :: t => some (c :: t)

/-- Pattern 1 of `extract_youtube_id`:
`(?:https?://)?(?:www\.)?youtube\.com/watch\?v=([a-zA-Z0-9_-]` 11 times
`)(?:&|$)`. -/
def ytWatchSearch (s : Str) : Option Str :=
  searchLit ("youtube.com/watch?v=".toList) (idCheck11 '&') s

/-- Pattern 2 of `extract_youtube_id`:
`(?:https?://)?(?:www\.)?youtu\.be/([a-zA-Z0-9_-]` 11 times `)(?:\?|$)`. -/
def ytShortSearch (s : Str) : Option Str :=
  searchLit ("youtu.be/".toList) (idCheck11 '?') s

/-- Pattern 3 of `extract_youtube_id`:
`(?:https?://)?(?:www\.)?youtube\.com/embed/([a-zA-Z0-9_-]` 11 times
`)(?:\?|$)`. -/
def ytEmbedSearch (s : Str) : Option Str :=
  searchLit ("youtube.com/embed/".toList) (idCheck11 '?') s

/-- Pattern 1 of `extract_vimeo_id`:
`(?:https?://)?(?:www\.)?vimeo\.com/(\d+)`. -/
def vimeoPlainSearch (s : Str) : Option Str :=
  searchLit ("vimeo.com/".toList) digitsCheck s

/-- Pattern 2 of `extract_vimeo_id`:
`(?:https?://)?player\.vimeo\.com/video/(\d+)`. -/
def vimeoPlayerSearch (s : Str) : Option Str :=
  searchLit ("player.vimeo.com/video/".toList) digitsCheck s

/-- `extract_youtube_id` of `vlog_tags.py`: `None` on falsy input, else the
three patterns tried in order, first match wins. -/
def extract_youtube_id : Option Str → Option Str
  | none => none
  | some [] => none
  | some (c :: t) =>
    match ytWatchSearch (c :: t) with
    | some r => some r
    | none =>
      match ytShortSearch (c :: t) with
      | some r => some r
      | none => ytEmbedSearch (c :: t)

/-- `extract_vimeo_id` of `vlog_tags.py`: `None` on falsy input, else the two
patterns tried in order, first match wins. -/
def extract_vimeo_id : Option Str → Option Str
  | none => none
  | some [] => none
  | some (c :: t) =>
    match vimeoPlainSearch (c :: t) with
    | some r => some r
    | none => vimeoPlayerSearch (c :: t)

/-- `is_youtube` of `vlog_tags.py`. -/
def is_youtube : Option Str → Bool
  | none => false
  | some [] => false
  | some (c :: t) =>
    hasSubstr ("youtube.com".toList) (c :: t) || hasSubstr ("youtu.be".toList) (c :: t)

/-- `is_vimeo` of `vlog_tags.py`. -/
def is_vimeo : Option Str → Bool
  | none => false
  | some [] => false
  | some (c :: t) => hasSubstr ("vimeo.com".toList) (c :: t)

/-- The literal `https://www.youtube-nocookie.com/embed/` prefixed to a
YouTube id by `get_video_embed_url`. -/
def embedYTPre : Str := "https://www.youtube-nocookie.com/embed/".toList

/-- The literal `https://player.vimeo.com/video/` prefixed to a Vimeo id by
`get_video_embed_url`. -/
def embedVimeoPre : Str := "https://player.vimeo.com/video/".toList

/-- `get_video_embed_url` of `vlog_tags.py`.  The `if video_id:` truthiness
test of Python is the `some (d :: ds)` match (a non-`None`, non-empty id). -/
def get_video_embed_url : Option Str → Option Str
  | none => none
  | some [] => none
  | some (c :: t) =>
    if hasSubstr ("youtube.com".toList) (c :: t) || hasSubstr ("youtu.be".toList) (c :: t) then
      match extract_youtube_id (some (c :: t)) with
      | some (d :: ds) => some (embedYTPre ++ (d :: ds))
      | _ => none
    else if hasSubstr ("vimeo.com".toList) (c :: t) then
      match extract_vimeo_id (some (c :: t)) with
      | some (d :: ds) => some (embedVimeoPre ++ (d :: ds))
      | _ => none
    else
      none

/-! ### Helper lemmas about the matcher combinators -/

theorem startsWithL_append_self : ∀ (l r : Str), startsWithL l (l ++ r) = true
  | [], _ => rfl
  | p :: ps, r => by simp [startsWithL, startsWithL_append_self ps r]

theorem startsWithL_subset : ∀ (lit s : Str), startsWithL lit s = true →
    ∀ x ∈ lit, x ∈ s
  | [], _, _, x, hx => absurd hx (List.not_mem_nil x)
  | _ :: _, [], h, _, _ => by simp [startsWithL] at h
  | p :: ps, c :: cs, h, x, hx => by
    rw [startsWithL, Bool.and_eq_true, beq_iff_eq] at h
    rcases List.mem_cons.mp hx with h1 | h2
    · subst h1; rw [h.1]; exact List.mem_cons_self c cs
    · exact List.mem_cons_of_mem c (startsWithL_subset ps cs h.2 x h2)

theorem searchLit_cons (lit : Str) (check : Str → Option Str) (c : Char) (t : Str) :
    searchLit lit check (c :: t) =
      if startsWithL lit (c :: t) then
        match check ((c :: t).drop lit.length) with
        | some r => some r
        | none => searchLit lit check t
      else
        searchLit lit check t := rfl

/-- Scanning past a leading segment that nowhere shows the first character of
the literal leaves the search result unchanged. -/
theorem searchLit_skip_pre (lit : Str) (check : Str → Option Str) (hne : lit ≠ []) :
    ∀ (pre s : Str), (∀ c ∈ pre, lit.head? ≠ some c) →
    searchLit lit check (pre ++ s) = searchLit lit check s
  | [], _, _ => rfl
  | c :: pre, s, h => by
    have hf : startsWithL lit (c :: (pre ++ s)) = false := by
      cases lit with
      | nil => exact absurd rfl hne
      | cons a l =>
        have hac : a ≠ c := by
          intro hac
          exact h c (List.mem_cons_self c pre) (by rw [hac]; rfl)
        simp [startsWithL, hac]
    rw [List.cons_append, searchLit_cons, hf]
    simp only [Bool.false_eq_true, if_false]
    exact searchLit_skip_pre lit check hne pre s fun d hd => h d (List.mem_cons_of_mem c hd)

/-- Unfolding the search at an occurrence of the literal itself. -/
theorem searchLit_self_append (lit : Str) (check : Str → Option Str) (rest : Str)
    (hne : lit ≠ []) :
    searchLit lit check (lit ++ rest) =
      match check rest with
      | some r => some r
      | none => searchLit lit check (lit.tail ++ rest) := by
  cases lit with
  | nil => exact absurd rfl hne
  | cons a l =>
    have hsw : startsWithL (a :: l) (a :: (l ++ rest)) = true := by
      rw [← List.cons_append]; exact startsWithL_append_self (a :: l) rest
    have hdrop : (a :: (l ++ rest)).drop (a :: l).length = rest := by
      rw [← List.cons_append]; exact List.drop_left (a :: l) rest
    rw [List.cons_append, searchLit_cons, hsw, hdrop]
    rfl

theorem searchLit_self_append_some (lit : Str) (check : Str → Option Str) (rest r : Str)
    (hne : lit ≠ []) (h : check rest = some r) :
    searchLit lit check (lit ++ rest) = some r := by
  rw [searchLit_self_append lit check rest hne, h]

theorem searchLit_self_append_none (lit : Str) (check : Str → Option Str) (rest : Str)
    (hne : lit ≠ []) (h : check rest = none) :
    searchLit lit check (lit ++ rest) = searchLit lit check (lit.tail ++ rest) := by
  rw [searchLit_self_append lit check rest hne, h]

/-- If the literal holds a character outside the id alphabet, the search fails
on any string made only of id characters. -/
theorem searchLit_none_of_bad (lit : Str) (check : Str → Option Str) (c0 : Char)
    (hmem : c0 ∈ lit) (hbad : isIdChar c0 = false) :
    ∀ s : Str, s.all isIdChar = true → searchLit lit check s = none
  | [], _ => rfl
  | c :: t, hall => by
    rw [List.all_cons, Bool.and_eq_true] at hall
    have hf : startsWithL lit (c :: t) = false := by
      cases hsw : startsWithL lit (c :: t) with
      | false => rfl
      | true =>
        have h0 : c0 ∈ c :: t := startsWithL_subset lit (c :: t) hsw c0 hmem
        have : isIdChar c0 = true := by
          rcases List.mem_cons.mp h0 with h1 | h2
          · rw [h1]; exact hall.1
          · exact List.all_eq_true.mp hall.2 c0 h2
        rw [this] at hbad; exact absurd hbad (by simp)
    rw [searchLit_cons, hf]
    simp only [Bool.false_eq_true, if_false]
    exact searchLit_none_of_bad lit check c0 hmem hbad t hall.2

/-- A successful search at the tail survives prepending one character. -/
theorem searchLit_mono_cons (lit : Str) (check : Str → Option Str) (c : Char) (t : Str)
    (h : ∃ r, searchLit lit check t = some r) :
    ∃ r, searchLit lit check (c :: t) = some r := by
  rw [searchLit_cons]
  cases hsw : startsWithL lit (c :: t) with
  | false => simpa using h
  | true =>
    cases hc : check ((c :: t).drop lit.length) with
    | none => simpa [hc] using h
    | some r => exact ⟨r, by simp [hc]⟩

/-- Any value a search returns was returned by the tail check. -/
theorem searchLit_prop (lit : Str) (check : Str → Option Str) (P : Str → Prop)
    (hcheck : ∀ t r, check t = some r → P r) :
    ∀ (s r : Str), searchLit lit check s = some r → P r
  | [], r, h => by simp [searchLit] at h
  | c :: t, r, h => by
    rw [searchLit_cons] at h
    by_cases hsw : startsWithL lit (c :: t) = true
    · rw [if_pos hsw] at h
      cases hc : check ((c :: t).drop lit.length) with
      | none => rw [hc] at h; exact searchLit_prop lit check P hcheck t r h
      | some r1 =>
        rw [hc] at h
        exact hcheck _ r (by rw [hc, Option.some_inj]; exact Option.some_inj.mp h)
    · rw [if_neg hsw] at h
      exact searchLit_prop lit check P hcheck t r h

theorem idCheck11_some (bnd : Char) (t r : Str) (h : idCheck11 bnd t = some r) :
    r.length = 11 ∧ r.all isIdChar = true := by
  unfold idCheck11 at h
  by_cases hc : ((t.take 11).length == 11 && (t.take 11).all isIdChar) = true
  · rw [if_pos hc] at h
    rw [Bool.and_eq_true, beq_iff_eq] at hc
    have hr : r = t.take 11 := by
      cases hd : t.drop 11 with
      | nil => rw [hd] at h; exact (Option.some_inj.mp h).symm
      | cons c cs =>
        rw [hd] at h
        replace h :
            (if (c == bnd || (c == '\n' && cs == [])) = true then some (t.take 11)
              else none) = some r := h
        by_cases hb : (c == bnd || (c == '\n' && cs == [])) = true
        · rw [if_pos hb] at h; exact (Option.some_inj.mp h).symm
        · rw [if_neg hb] at h; exact absurd h (by simp)
    rw [hr]; exact hc
  · rw [if_neg hc] at h; exact absurd h (by simp)

theorem idCheck11_of (bnd : Char) (id suffix : Str) (h1 : id.length = 11)
    (h2 : id.all isIdChar = true)
    (h3 : suffix = [] ∨ (∃ r, suffix = bnd :: r) ∨ suffix = ['\n']) :
    idCheck11 bnd (id ++ suffix) = some id := by
  have ht : (id ++ suffix).take 11 = id := by rw [← h1]; exact List.take_left id suffix
  have hd : (id ++ suffix).drop 11 = suffix := by rw [← h1]; exact List.drop_left id suffix
  unfold idCheck11
  rw [ht, hd, h1]
  simp only [h2, beq_self_eq_true, Bool.and_self, if_true]
  rcases h3 with rfl | ⟨r, rfl⟩ | rfl
  · rfl
  · show (if (bnd == bnd || (bnd == '\n' && r == [])) = true then some id else none) =
      some id
    simp
  · show (if ('\n' == bnd || ('\n' == '\n' && ([] : Str) == [])) = true then some id
      else none) = some id
    simp

theorem digitsCheck_some (t r : Str) (h : digitsCheck t = some r) : r ≠ [] := by
  unfold digitsCheck at h
  cases hd : t.takeWhile isPyDigit with
  | nil => rw [hd] at h; exact absurd h (by simp)
  | cons c cs =>
    rw [hd] at h
    rw [← Option.some_inj.mp h]
    simp

theorem takeWhile_append_of (p : Char → Bool) :
    ∀ (ds suf : Str), ds.all p = true → (∀ c, suf.head? = some c → p c = false) →
    (ds ++ suf).takeWhile p = ds
  | [], suf, _, h2 => by
    cases suf with
    | nil => rfl
    | cons c cs =>
      rw [List.nil_append, List.takeWhile_cons, h2 c rfl]
      rfl
  | d :: ds, suf, h1, h2 => by
    rw [List.all_cons, Bool.and_eq_true] at h1
    rw [List.cons_append, List.takeWhile_cons, h1.1]
    simp only [if_true]
    rw [takeWhile_append_of p ds suf h1.2 h2]

theorem startsWithL_length_le : ∀ (lit s : Str), startsWithL lit s = true →
    lit.length ≤ s.length
  | [], s, _ => Nat.zero_le _
  | _ :: _, [], h => by simp [startsWithL] at h
  | p :: ps, c :: cs, h => by
    rw [startsWithL, Bool.and_eq_true] at h
    exact Nat.succ_le_succ (startsWithL_length_le ps cs h.2)

/-- The search fails on any string shorter than the literal. -/
theorem searchLit_none_of_short (lit : Str) (check : Str → Option Str) :
    ∀ s : Str, s.length < lit.length → searchLit lit check s = none
  | [], _ => rfl
  | c :: t, hlt => by
    have hf : startsWithL lit (c :: t) = false := by
      cases hsw : startsWithL lit (c :: t) with
      | false => rfl
      | true =>
        exact absurd (startsWithL_length_le lit (c :: t) hsw) (Nat.not_le_of_lt hlt)
    rw [searchLit_cons, hf]
    simp only [Bool.false_eq_true, if_false]
    exact searchLit_none_of_short lit check t
      (Nat.lt_of_le_of_lt (Nat.le_succ t.length) hlt)

/-! ### Unfolding lemmas for the extraction functions on truthy input -/

theorem extract_youtube_id_pos (s : Str) (h : s ≠ []) :
    extract_youtube_id (some s) =
      match ytWatchSearch s with
      | some r => some r
      | none =>
        match ytShortSearch s with
        | some r => some r
        | none => ytEmbedSearch s := by
  cases s with
  | nil => exact absurd rfl h
  | cons c t => rfl

theorem extract_vimeo_id_pos (s : Str) (h : s ≠ []) :
    extract_vimeo_id (some s) =
      match vimeoPlainSearch s with
      | some r => some r
      | none => vimeoPlayerSearch s := by
  cases s with
  | nil => exact absurd rfl h
  | cons c t => rfl

theorem get_video_embed_url_pos (s : Str) (h : s ≠ []) :
    get_video_embed_url (some s) =
      if hasSubstr ("youtube.com".toList) s || hasSubstr ("youtu.be".toList) s then
        match extract_youtube_id (some s) with
        | some (d :: ds) => some (embedYTPre ++ (d :: ds))
        | _ => none
      else if hasSubstr ("vimeo.com".toList) s then
        match extract_vimeo_id (some s) with
        | some (d :: ds) => some (embedVimeoPre ++ (d :: ds))
        | _ => none
      else
        none := by
  cases s with
  | nil => exact absurd rfl h
  | cons c t => rfl

/-! ### Shape of the extracted identifiers -/

theorem ytWatchSearch_shape (s r : Str) (h : ytWatchSearch s = some r) :
    r.length = 11 ∧ r.all isIdChar = true :=
  searchLit_prop _ _ _ (fun t r h => idCheck11_some '&' t r h) s r h

theorem ytShortSearch_shape (s r : Str) (h : ytShortSearch s = some r) :
    r.length = 11 ∧ r.all isIdChar = true :=
  searchLit_prop _ _ _ (fun t r h => idCheck11_some '?' t r h) s r h

theorem ytEmbedSearch_shape (s r : Str) (h : ytEmbedSearch s = some r) :
    r.length = 11 ∧ r.all isIdChar = true :=
  searchLit_prop _ _ _ (fun t r h => idCheck11_some '?' t r h) s r h

theorem extract_youtube_id_shape (u : Option Str) (r : Str)
    (h : extract_youtube_id u = some r) : r.length = 11 ∧ r.all isIdChar = true := by
  match u with
  | none => simp [extract_youtube_id] at h
  | some [] => simp [extract_youtube_id] at h
  | some (c :: t) =>
    rw [extract_youtube_id_pos (c :: t) (by simp)] at h
    cases h1 : ytWatchSearch (c :: t) with
    | some r1 =>
      rw [h1] at h
      exact ytWatchSearch_shape (c :: t) r (by rw [h1, Option.some_inj]; exact Option.some_inj.mp h)
    | none =>
      rw [h1] at h
      cases h2 : ytShortSearch (c :: t) with
      | some r2 =>
        rw [h2] at h
        exact ytShortSearch_shape (c :: t) r
          (by rw [h2, Option.some_inj]; exact Option.some_inj.mp h)
      | none =>
        rw [h2] at h
        exact ytEmbedSearch_shape (c :: t) r h

theorem extract_vimeo_id_shape (u : Option Str) (r : Str)
    (h : extract_vimeo_id u = some r) : r ≠ [] := by
  match u with
  | none => simp [extract_vimeo_id] at h
  | some [] => simp [extract_vimeo_id] at h
  | some (c :: t) =>
    rw [extract_vimeo_id_pos (c :: t) (by simp)] at h
    cases h1 : vimeoPlainSearch (c :: t) with
    | some r1 =>
      rw [h1] at h
      exact searchLit_prop _ _ _ digitsCheck_some (c :: t) r
        (by rw [show r1 = r from Option.some_inj.mp h] at h1; exact h1)
    | none =>
      rw [h1] at h
      exact searchLit_prop _ _ _ digitsCheck_some (c :: t) r h

/-! ### The claims -/

/-- C1: for every non-empty URL string, `get_video_embed_url` returns the
youtube-nocookie embed prefix plus the id `extract_youtube_id` yields (or
null when that extraction yields null) when the string holds `youtube.com` or
`youtu.be`; otherwise, when it holds `vimeo.com`, the Vimeo player prefix
plus the id `extract_vimeo_id` yields (or null when that yields null);
otherwise null. -/
theorem claim_C1_embed_branches (s : Str) (h : s ≠ []) :
    get_video_embed_url (some s) =
      if hasSubstr ("youtube.com".toList) s || hasSubstr ("youtu.be".toList) s then
        match extract_youtube_id (some s) with
        | some id => some (embedYTPre ++ id)
        | none => none
      else if hasSubstr ("vimeo.com".toList) s then
        match extract_vimeo_id (some s) with
        | some id => some (embedVimeoPre ++ id)
        | none => none
      else
        none := by
  rw [get_video_embed_url_pos s h]
  by_cases hy : (hasSubstr ("youtube.com".toList) s || hasSubstr ("youtu.be".toList) s) = true
  · simp only [if_pos hy]
    cases he : extract_youtube_id (some s) with
    | none => rfl
    | some r =>
      have hr := extract_youtube_id_shape _ _ he
      cases r with
      | nil => simp at hr
      | cons d ds => rfl
  · simp only [if_neg hy]
    by_cases hv : hasSubstr ("vimeo.com".toList) s = true
    · simp only [if_pos hv]
      cases he : extract_vimeo_id (some s) with
      | none => rfl
      | some r =>
        have hr := extract_vimeo_id_shape _ _ he
        cases r with
        | nil => exact absurd rfl hr
        | cons d ds => rfl
    · simp only [if_neg hv]

theorem claim_C1_witness :
    ("https://youtu.be/DxCJBeF2MqE".toList ≠ ([] : Str)) ∧
    get_video_embed_url (some ("https://youtu.be/DxCJBeF2MqE".toList)) =
      (if hasSubstr ("youtube.com".toList) ("https://youtu.be/DxCJBeF2MqE".toList) ||
          hasSubstr ("youtu.be".toList) ("https://youtu.be/DxCJBeF2MqE".toList) then
        match extract_youtube_id (some ("https://youtu.be/DxCJBeF2MqE".toList)) with
        | some id => some (embedYTPre ++ id)
        | none => none
      else if hasSubstr ("vimeo.com".toList) ("https://youtu.be/DxCJBeF2MqE".toList) then
        match extract_vimeo_id (some ("https://youtu.be/DxCJBeF2MqE".toList)) with
        | some id => some (embedVimeoPre ++ id)
        | none => none
      else
        none) :=
  ⟨by decide, claim_C1_embed_branches _ (by decide)⟩

/-- C2: a string holding none of the substrings `youtube.com`, `youtu.be`,
`vimeo.com` is classified as no provider (`is_youtube` and `is_vimeo` are
false) and `get_video_embed_url` returns null on it. -/
theorem claim_C2_unknown_provider (s : Str)
    (h1 : hasSubstr ("youtube.com".toList) s = false)
    (h2 : hasSubstr ("youtu.be".toList) s = false)
    (h3 : hasSubstr ("vimeo.com".toList) s = false) :
    is_youtube (some s) = false ∧ is_vimeo (some s) = false ∧
    get_video_embed_url (some s) = none := by
  cases s with
  | nil => exact ⟨rfl, rfl, rfl⟩
  | cons c t =>
    refine ⟨?_, ?_, ?_⟩
    · simp only [is_youtube]
      rw [h1, h2]
      rfl
    · simp only [is_vimeo]
      exact h3
    · rw [get_video_embed_url_pos (c :: t) (by simp), h1, h2, h3]
      simp

theorem claim_C2_witness :
    hasSubstr ("youtube.com".toList) ("https://example.com/video.mp4".toList) = false ∧
    hasSubstr ("youtu.be".toList) ("https://example.com/video.mp4".toList) = false ∧
    hasSubstr ("vimeo.com".toList) ("https://example.com/video.mp4".toList) = false ∧
    (is_youtube (some ("https://example.com/video.mp4".toList)) = false ∧
      is_vimeo (some ("https://example.com/video.mp4".toList)) = false ∧
      get_video_embed_url (some ("https://example.com/video.mp4".toList)) = none) :=
  ⟨by decide, by decide, by decide,
    claim_C2_unknown_provider _ (by decide) (by decide) (by decide)⟩

/-- C3 counterexample: the claim allows only `&` or end-of-string after the
11 identifier characters, but on an input where they are followed by a
trailing newline — a missing boundary in the claim's sense — the identifier
is still extracted, because the Python `$` matches just before a newline that
ends the string. -/
theorem claim_C3_counterexample :
    extract_youtube_id
        (some ("https://www.youtube.com/watch?v=rHux0gMZ3Eg".toList ++ ['\n'])) =
      some ("rHux0gMZ3Eg".toList) := by decide

/-- C3 amended: in the watch shape, an identifier of exactly 11 id characters
followed by `&`, end-of-string, or a newline that ends the string is
extracted (extra query parameters after `&` are ignored, as on the concrete
input with a trailing `&t=30s`), while any other single character right after
the 11 — in particular a 12th identifier character — makes the watch shape
not match. -/
theorem claim_C3_watch_boundary_amended (id suffix id11 : Str) (c12 : Char)
    (h1 : id.length = 11) (h2 : id.all isIdChar = true)
    (h3 : suffix = [] ∨ (∃ r, suffix = '&' :: r) ∨ suffix = ['\n'])
    (h4 : id11.length = 11) (h5 : id11.all isIdChar = true)
    (h6 : (c12 == '&') = false) (h7 : (c12 == '\n') = false) :
    extract_youtube_id
        (some ("https://www.youtube.com/watch?v=".toList ++ id ++ suffix)) = some id ∧
    ytWatchSearch ("https://www.youtube.com/watch?v=".toList ++ id11 ++ [c12]) = none ∧
    extract_youtube_id
        (some ("https://www.youtube.com/watch?v=rHux0gMZ3Eg&t=30s".toList)) =
      some ("rHux0gMZ3Eg".toList) := by
  have hsplit : "https://www.youtube.com/watch?v=".toList =
      "https://www.".toList ++ "youtube.com/watch?v=".toList := by decide
  refine ⟨?_, ?_, by decide⟩
  · have harg : "https://www.youtube.com/watch?v=".toList ++ id ++ suffix ≠ [] := by
      intro hn
      rw [hsplit, List.append_assoc, List.append_assoc] at hn
      exact absurd (List.append_eq_nil.mp hn).1 (by decide)
    rw [extract_youtube_id_pos _ harg]
    have hw : ytWatchSearch ("https://www.youtube.com/watch?v=".toList ++ id ++ suffix) =
        some id := by
      unfold ytWatchSearch
      rw [hsplit, List.append_assoc, List.append_assoc]
      rw [searchLit_skip_pre _ _ (by decide) _ _ (by decide)]
      exact searchLit_self_append_some _ _ _ _ (by decide)
        (idCheck11_of '&' id suffix h1 h2 h3)
    rw [hw]
  · have hchk : idCheck11 '&' (id11 ++ [c12]) = none := by
      have ht : (id11 ++ [c12]).take 11 = id11 := by
        rw [← h4]; exact List.take_left id11 [c12]
      have hd : (id11 ++ [c12]).drop 11 = [c12] := by
        rw [← h4]; exact List.drop_left id11 [c12]
      unfold idCheck11
      rw [ht, hd, h4]
      simp only [h5, beq_self_eq_true, Bool.and_self, if_true]
      show (if (c12 == '&' || (c12 == '\n' && ([] : Str) == [])) = true then some id11
        else none) = none
      rw [h6, h7]
      simp
    unfold ytWatchSearch
    rw [hsplit, List.append_assoc, List.append_assoc]
    rw [searchLit_skip_pre _ _ (by decide) _ _ (by decide)]
    rw [searchLit_self_append_none _ _ _ (by decide) hchk]
    rw [show ("youtube.com/watch?v=".toList).tail = "outube.com/watch?v=".toList
      from by decide]
    rw [searchLit_skip_pre _ _ (by decide) _ _ (by decide)]
    have hlen : (id11 ++ [c12]).length = 12 := by
      rw [List.length_append, h4]
      rfl
    refine searchLit_none_of_short _ _ _ ?_
    rw [hlen]
    decide

theorem claim_C3_witness :
    ("rHux0gMZ3Eg".toList).length = 11 ∧
    ("rHux0gMZ3Eg".toList).all isIdChar = true ∧
    (('&' :: "t=30s".toList) = ([] : Str) ∨
      (∃ r, ('&' :: "t=30s".toList) = '&' :: r) ∨ ('&' :: "t=30s".toList) = ['\n']) ∧
    ("DxCJBeF2MqE".toList).length = 11 ∧
    ("DxCJBeF2MqE".toList).all isIdChar = true ∧
    (('g' == '&') = false) ∧ (('g' == '\n') = false) ∧
    (extract_youtube_id
        (some ("https://www.youtube.com/watch?v=".toList ++ "rHux0gMZ3Eg".toList ++
          ('&' :: "t=30s".toList))) = some ("rHux0gMZ3Eg".toList) ∧
      ytWatchSearch
        ("https://www.youtube.com/watch?v=".toList ++ "DxCJBeF2MqE".toList ++ ['g']) =
        none ∧
      extract_youtube_id
        (some ("https://www.youtube.com/watch?v=rHux0gMZ3Eg&t=30s".toList)) =
        some ("rHux0gMZ3Eg".toList)) :=
  ⟨by decide, by decide, Or.inr (Or.inl ⟨"t=30s".toList, rfl⟩), by decide, by decide,
    by decide, by decide,
    claim_C3_watch_boundary_amended _ _ _ _ (by decide) (by decide)
      (Or.inr (Or.inl ⟨"t=30s".toList, rfl⟩)) (by decide) (by decide) (by decide)
      (by decide)⟩

/-- C4: every non-null result of `extract_youtube_id` is a string of exactly
11 characters drawn from the id alphabet. -/
theorem claim_C4_id_shape (u : Option Str) (r : Str)
    (h : extract_youtube_id u = some r) :
    r.length = 11 ∧ r.all isIdChar = true :=
  extract_youtube_id_shape u r h

theorem claim_C4_witness :
    extract_youtube_id (some ("https://youtu.be/DxCJBeF2MqE".toList)) =
      some ("DxCJBeF2MqE".toList) ∧
    (("DxCJBeF2MqE".toList).length = 11 ∧ ("DxCJBeF2MqE".toList).all isIdChar = true) :=
  ⟨by decide,
    claim_C4_id_shape (some ("https://youtu.be/DxCJBeF2MqE".toList))
      ("DxCJBeF2MqE".toList) (by decide)⟩

/-- C5: the two concrete pairs hold — the watch URL maps to a
youtube-nocookie embed URL, and a `player.vimeo.com` URL maps to itself. -/
theorem claim_C5_concrete_pairs :
    get_video_embed_url (some ("https://www.youtube.com/watch?v=rHux0gMZ3Eg".toList)) =
      some ("https://www.youtube-nocookie.com/embed/rHux0gMZ3Eg".toList) ∧
    get_video_embed_url (some ("https://player.vimeo.com/video/76979871".toList)) =
      some ("https://player.vimeo.com/video/76979871".toList) := by
  constructor <;> decide

/-- C6: every operation is total — a plain function in this embedding — and
empty or null input yields the `false`/null sentinel in all five
operations. -/
theorem claim_C6_totality :
    extract_youtube_id none = none ∧ extract_youtube_id (some []) = none ∧
    extract_vimeo_id none = none ∧ extract_vimeo_id (some []) = none ∧
    is_youtube none = false ∧ is_youtube (some []) = false ∧
    is_vimeo none = false ∧ is_vimeo (some []) = false ∧
    get_video_embed_url none = none ∧ get_video_embed_url (some []) = none ∧
    (∀ u, extract_youtube_id u = none ∨ ∃ r, extract_youtube_id u = some r) ∧
    (∀ u, extract_vimeo_id u = none ∨ ∃ r, extract_vimeo_id u = some r) ∧
    (∀ u, is_youtube u = false ∨ is_youtube u = true) ∧
    (∀ u, is_vimeo u = false ∨ is_vimeo u = true) ∧
    (∀ u, get_video_embed_url u = none ∨ ∃ r, get_video_embed_url u = some r) := by
  refine ⟨rfl, rfl, rfl, rfl, rfl, rfl, rfl, rfl, rfl, rfl, ?_, ?_, ?_, ?_, ?_⟩
  · intro u
    cases extract_youtube_id u with
    | none => exact Or.inl rfl
    | some r => exact Or.inr ⟨r, rfl⟩
  · intro u
    cases extract_vimeo_id u with
    | none => exact Or.inl rfl
    | some r => exact Or.inr ⟨r, rfl⟩
  · intro u
    cases is_youtube u with
    | false => exact Or.inl rfl
    | true => exact Or.inr rfl
  · intro u
    cases is_vimeo u with
    | false => exact Or.inl rfl
    | true => exact Or.inr rfl
  · intro u
    cases get_video_embed_url u with
    | none => exact Or.inl rfl
    | some r => exact Or.inr ⟨r, rfl⟩

/-- C7: applying `extract_youtube_id` to any identifier it returned yields
null, since a bare 11-character id shows none of the three host shapes. -/
theorem claim_C7_output_not_reparsed (u : Option Str) (id : Str)
    (h : extract_youtube_id u = some id) :
    extract_youtube_id (some id) = none := by
  obtain ⟨hlen, hall⟩ := extract_youtube_id_shape u id h
  have hne : id ≠ [] := by
    intro he
    rw [he] at hlen
    exact absurd hlen (by decide)
  rw [extract_youtube_id_pos id hne]
  have hw : ytWatchSearch id = none :=
    searchLit_none_of_bad _ _ '.' (by decide) (by decide) id hall
  have hs : ytShortSearch id = none :=
    searchLit_none_of_bad _ _ '.' (by decide) (by decide) id hall
  have he : ytEmbedSearch id = none :=
    searchLit_none_of_bad _ _ '.' (by decide) (by decide) id hall
  rw [hw, hs, he]

theorem claim_C7_witness :
    extract_youtube_id (some ("https://www.youtube.com/embed/DxCJBeF2MqE".toList)) =
      some ("DxCJBeF2MqE".toList) ∧
    extract_youtube_id (some ("DxCJBeF2MqE".toList)) = none :=
  ⟨by decide,
    claim_C7_output_not_reparsed
      (some ("https://www.youtube.com/embed/DxCJBeF2MqE".toList))
      ("DxCJBeF2MqE".toList) (by decide)⟩

/-- C8: `extract_vimeo_id` tries the `vimeo.com/` digits shape first and the
`player.vimeo.com/video/` digits shape second, returning the first match, and
the first shape captures the maximal leading digit run with no
trailing-boundary requirement. -/
theorem claim_C8_vimeo_order_digits (s ds suffix : Str)
    (hs : s ≠ []) (hds : ds ≠ []) (hall : ds.all isPyDigit = true)
    (hsuf : ∀ c, suffix.head? = some c → isPyDigit c = false) :
    extract_vimeo_id (some s) =
      (match vimeoPlainSearch s with
       | some r => some r
       | none => vimeoPlayerSearch s) ∧
    extract_vimeo_id (some ("vimeo.com/".toList ++ ds ++ suffix)) = some ds := by
  refine ⟨extract_vimeo_id_pos s hs, ?_⟩
  have harg : "vimeo.com/".toList ++ ds ++ suffix ≠ [] := by
    intro hn
    rw [List.append_assoc] at hn
    exact absurd (List.append_eq_nil.mp hn).1 (by decide)
  rw [extract_vimeo_id_pos _ harg]
  have hp : vimeoPlainSearch ("vimeo.com/".toList ++ ds ++ suffix) = some ds := by
    unfold vimeoPlainSearch
    rw [List.append_assoc]
    refine searchLit_self_append_some _ _ _ _ (by decide) ?_
    unfold digitsCheck
    rw [takeWhile_append_of isPyDigit ds suffix hall hsuf]
    cases ds with
    | nil => exact absurd rfl hds
    | cons d dt => rfl
  rw [hp]

theorem claim_C8_witness :
    ("x".toList ≠ ([] : Str)) ∧ ("123".toList ≠ ([] : Str)) ∧
    ("123".toList).all isPyDigit = true ∧
    (∀ c, ('a' :: "bc".toList).head? = some c → isPyDigit c = false) ∧
    (extract_vimeo_id (some ("x".toList)) =
      (match vimeoPlainSearch ("x".toList) with
       | some r => some r
       | none => vimeoPlayerSearch ("x".toList)) ∧
      extract_vimeo_id
        (some ("vimeo.com/".toList ++ "123".toList ++ ('a' :: "bc".toList))) =
        some ("123".toList)) :=
  ⟨by decide, by decide, by decide,
    fun c hc => by rw [← Option.some_inj.mp hc]; decide,
    claim_C8_vimeo_order_digits _ _ _ (by decide) (by decide) (by decide)
      (fun c hc => by rw [← Option.some_inj.mp hc]; decide)⟩

/-- C9: YouTube classification preempts Vimeo with no fallback — on any
string holding `youtube.com` or `youtu.be` the result is null or a
youtube-nocookie embed URL, and on the concrete input holding both providers
the result is null although `extract_vimeo_id` finds a digit id. -/
theorem claim_C9_youtube_preempts (s : Str)
    (h : (hasSubstr ("youtube.com".toList) s || hasSubstr ("youtu.be".toList) s) = true) :
    (get_video_embed_url (some s) = none ∨
      ∃ id, get_video_embed_url (some s) = some (embedYTPre ++ id)) ∧
    get_video_embed_url (some ("youtube.com https://vimeo.com/123".toList)) = none ∧
    extract_vimeo_id (some ("youtube.com https://vimeo.com/123".toList)) =
      some ("123".toList) := by
  refine ⟨?_, by decide, by decide⟩
  have hs : s ≠ [] := by
    intro he
    rw [he] at h
    exact absurd h (by decide)
  rw [get_video_embed_url_pos s hs, if_pos h]
  cases he : extract_youtube_id (some s) with
  | none => exact Or.inl rfl
  | some r =>
    cases r with
    | nil => exact Or.inl rfl
    | cons d ds => exact Or.inr ⟨d :: ds, rfl⟩

theorem claim_C9_witness :
    (hasSubstr ("youtube.com".toList) ("x youtu.be y".toList) ||
      hasSubstr ("youtu.be".toList) ("x youtu.be y".toList)) = true ∧
    ((get_video_embed_url (some ("x youtu.be y".toList)) = none ∨
      ∃ id, get_video_embed_url (some ("x youtu.be y".toList)) =
        some (embedYTPre ++ id)) ∧
      get_video_embed_url (some ("youtube.com https://vimeo.com/123".toList)) = none ∧
      extract_vimeo_id (some ("youtube.com https://vimeo.com/123".toList)) =
        some ("123".toList)) :=
  ⟨by decide, claim_C9_youtube_preempts _ (by decide)⟩

/-- C10: the shapes are found by unanchored substring search: any leading
text before `youtube.com/watch?v=` followed by an 11-character id is
accepted, as on the mobile-host example. -/
theorem claim_C10_unanchored (p c : Str) (h1 : c.length = 11)
    (h2 : c.all isIdChar = true) :
    (∃ r, extract_youtube_id
        (some (p ++ "youtube.com/watch?v=".toList ++ c)) = some r) ∧
    extract_youtube_id (some ("https://m.youtube.com/watch?v=rHux0gMZ3Eg".toList)) =
      some ("rHux0gMZ3Eg".toList) := by
  refine ⟨?_, by decide⟩
  have hw : ∃ r, ytWatchSearch (p ++ "youtube.com/watch?v=".toList ++ c) = some r := by
    unfold ytWatchSearch
    rw [List.append_assoc]
    induction p with
    | nil =>
      rw [List.nil_append]
      refine ⟨c, searchLit_self_append_some _ _ _ _ (by decide) ?_⟩
      have hc := idCheck11_of '&' c [] h1 h2 (Or.inl rfl)
      rw [List.append_nil] at hc
      exact hc
    | cons a p ih =>
      rw [List.cons_append]
      exact searchLit_mono_cons _ _ a _ ih
  obtain ⟨r, hr⟩ := hw
  have harg : p ++ "youtube.com/watch?v=".toList ++ c ≠ [] := by
    intro hn
    rw [List.append_assoc] at hn
    exact absurd (List.append_eq_nil.mp (List.append_eq_nil.mp hn).2).1 (by decide)
  rw [extract_youtube_id_pos _ harg, hr]
  exact ⟨r, rfl⟩

theorem claim_C10_witness :
    ("rHux0gMZ3Eg".toList).length = 11 ∧
    ("rHux0gMZ3Eg".toList).all isIdChar = true ∧
    ((∃ r, extract_youtube_id
        (some ("https://m.".toList ++ "youtube.com/watch?v=".toList ++
          "rHux0gMZ3Eg".toList)) = some r) ∧
      extract_youtube_id
        (some ("https://m.youtube.com/watch?v=rHux0gMZ3Eg".toList)) =
        some ("rHux0gMZ3Eg".toList)) :=
  ⟨by decide, by decide, claim_C10_unanchored _ _ (by decide) (by decide)⟩

end Vlog
